import Mathlib

/-
Shallow embedding of the HDF5 object-persistence engine of
src/local_utils.py (the block from _OrderedDict_to_array down to
read_hdf5), together with theorems settling the specified properties.

Modelling conventions, chosen once for the whole development:

* Python machine values that the engine only ever stores and retrieves
  (numeric array payloads) are carried by `Int`; no arithmetic is ever
  performed on them, so the carrier is irrelevant to every statement.
* A Python float scalar is carried by its repr string (the engine only
  ever applies str() to it before storing it as bytes).
* Byte strings are modelled in decoded form: numpy's dtype S encoding
  of a text value and the matching decode on read are inverse on the
  ASCII payloads the engine handles, so both are the identity here.
  Null-byte padding and non-ASCII encode failures are outside the model.
* The container (h5py file) is a tree of named datasets and groups plus
  string attributes on the file root.  Entry order models the
  container's link order; Python dict equality is order-insensitive and
  ordered data lives inside single datasets, so traversal order never
  affects a claim, and the model keeps insertion order.
* Entries written by save_hdf5 never carry attributes of their own
  (only the file root receives the metadata attribute), so reading an
  entry's attribute mapping (_read_attrs on a dataset or group) yields
  the empty dict.
* A JSON attribute string is modelled by its parse: `AttrStr.json m`
  stands for a string that json.loads parses to m (json.dumps followed
  by json.loads is the identity on the str/list/dict fragment used
  here, with tuples becoming lists, which the model builds directly),
  and `AttrStr.raw s` stands for a string that does not parse.
* Python exceptions are modelled by the `PErr` error monad; distinct
  raise sites get distinct constructors, mirroring the distinct
  exception type/message observable at each site.
* The `compression` parameter is threaded through the source writers
  but has no observable effect on the stored values; it is dropped.

A few reader branches are reachable only from containers that
save_hdf5 can never produce (for example applying the OrderedDict
reader to a numeric dataset, or a nested dict tag inside a table's
column metadata); those branches are modelled as read errors, with a
comment at each site recording the underlying Python behaviour.  No
theorem below depends on such a branch.
-/

namespace LU

/-- A numpy numeric ndarray: a shape together with its flat contents.
The engine stores and reloads it natively and never computes with it. -/
structure NdArr where
  shape : List Nat
  data : List Int
deriving DecidableEq

/-- One cell of a pandas object (text) column: a present string or a
missing value (numpy nan / None). -/
inductive OCell where
  | s (v : String)
  | missing
deriving DecidableEq

/-- One pandas DataFrame column: a homogeneous numeric column or an
object (text, possibly missing) column. -/
inductive Col where
  | numCol (xs : List Int)
  | objCol (cells : List OCell)
deriving DecidableEq

/-- A numpy array value as the writers see it: numeric, 1-D of str,
2-D fixed-width of str, or an object array whose cells may still hold
missing values (the result of Series.to_numpy on an object column). -/
inductive NpArr where
  | num (t : NdArr)
  | strs (xs : List String)
  | strs2 (rows : List (List String))
  | objs (cells : List OCell)
deriving DecidableEq

/-- The JSON values that json.dumps/json.loads exchange here: strings,
arrays and string-keyed objects. -/
inductive MVal where
  | str (s : String)
  | arr (xs : List MVal)
  | obj (fields : List (String × MVal))

/-- A root attribute string, modelled by its JSON parse (see header). -/
inductive AttrStr where
  | json (m : MVal)
  | raw (s : String)

/-- The payload of one HDF5 dataset: native numeric data, a 1-D string
dataset, or a 2-D fixed-width string dataset. -/
inductive DData where
  | dnum (t : NdArr)
  | dstr (xs : List String)
  | dstr2 (rows : List (List String))
deriving DecidableEq

mutual
/-- One named member of an HDF5 group: a dataset or a nested group. -/
inductive HEntry where
  | dset (d : DData)
  | group (es : HEntries)
/-- The ordered named members of an HDF5 group. -/
inductive HEntries where
  | nil
  | cons (k : String) (e : HEntry) (rest : HEntries)
end

/-- An HDF5 file: its root members and its root attributes. -/
structure HFile where
  entries : HEntries
  rootAttrs : List (String × AttrStr)

/-- Python exceptions surfaced by the engine, one constructor per
observable raise site. -/
inductive PErr where
  /-- numpy ValueError: ragged nested lists cannot form a fixed-width array. -/
  | raggedArray
  /-- numpy TypeError/ValueError: a value with no dtype S conversion. -/
  | cannotEncode
  /-- dispatch hit the attrs/InputParameters writer, whose input classes
  are outside the value model (no Python value here has those class names). -/
  | unsupportedWriter
  /-- KeyError('_metadata'): the root attribute mapping lacks the key. -/
  | missingMetadataAttr
  /-- json.JSONDecodeError: the root metadata attribute does not parse. -/
  | metadataNotJson
  /-- KeyError: metadata[key] missing during reconstruction. -/
  | metaKeyMissing
  /-- TypeError: indexing a non-dict metadata node with a string key. -/
  | metaNotDict
  /-- TypeError: a list (unhashable) used as a registry lookup key. -/
  | unhashableTag
  /-- a dataset-level reader applied to a group (h5py TypeError). -/
  | notADataset
  /-- a group-level reader applied to a dataset (h5py TypeError). -/
  | notAGroup
  /-- ValueError/TypeError while unpacking rows or column metadata pairs. -/
  | cannotUnpack
  /-- AttributeError: elements without a decode method in _read_list. -/
  | noDecodeMethod
  /-- AttributeError: a reader result without a dtype in _read_DataFrame. -/
  | noDtype
  /-- pandas: a column that is not a 1-D array. -/
  | badColumnShape
  /-- pandas: DataFrame columns of unequal length. -/
  | columnLengthMismatch
  /-- KeyError: a column named in the metadata is absent from the group. -/
  | columnMissing
  /-- the InputParameters reader, whose class is outside the value model. -/
  | unsupportedReader
deriving DecidableEq

/-- One observable step of save_hdf5, in execution order. -/
inductive SaveStep where
  | wroteEntry (k : String)
  | wroteMetadataAttr
deriving DecidableEq

mutual
/-- An in-memory Python value handled by the engine: the scalar shapes
(int, float, str), a numpy array, a list, a collections.OrderedDict
(whose values, in every use this engine supports, are lists), a plain
dict, and a pandas DataFrame. -/
inductive PVal where
  | pyInt (n : Int)
  | pyFloat (r : String)
  | pyStr (s : String)
  | arr (a : NpArr)
  | list (xs : PList)
  | odict (rows : ORows)
  | dict (es : PEntries)
  | df (cols : List (String × Col))
/-- A Python list of values. -/
inductive PList where
  | nil
  | cons (v : PVal) (rest : PList)
/-- The ordered entries of a Python dict (keys are unique in any value
that a real dict can denote; theorems carry that as a hypothesis). -/
inductive PEntries where
  | nil
  | cons (k : String) (v : PVal) (rest : PEntries)
/-- The ordered entries of an OrderedDict: label to value-list pairs. -/
inductive ORows where
  | nil
  | cons (k : String) (vals : PList) (rest : ORows)
end

/-- Python's `__class__.__name__` for the modelled values. -/
def clsName : PVal → String
  | .pyInt _ => "int"
  | .pyFloat _ => "float"
  | .pyStr _ => "str"
  | .arr _ => "ndarray"
  | .list _ => "list"
  | .odict _ => "OrderedDict"
  | .dict _ => "dict"
  | .df _ => "DataFrame"

/-- numpy's dtype S conversion of a single Python value: str() of the
value, encoded (here: the decoded text itself).  `none` for values a
fixed-width byte cell cannot hold. -/
def pyStrConv : PVal → Option String
  | .pyInt n => some (toString n)
  | .pyFloat r => some r
  | .pyStr s => some s
  | _ => none

/-- Association-list lookup used for attrs, metadata objects and the
registries (first match wins, as in a Python dict). -/
def alookup {α : Type} (k : String) : List (String × α) → Option α
  | [] => none
  | (k', v) :: rest => if k' = k then some v else alookup k rest

/-- Keys of a dict value, in order. -/
def PEntries.keys : PEntries → List String
  | .nil => []
  | .cons k _ rest => k :: rest.keys

/-- Labels of an OrderedDict, in insertion order. -/
def ORows.keys : ORows → List String
  | .nil => []
  | .cons k _ rest => k :: rest.keys

/-- dtype S conversion of every element of a Python list; `none` as
soon as one element cannot be converted. -/
def PList.toStrs : PList → Option (List String)
  | .nil => some []
  | .cons v rest => do
      let s ← pyStrConv v
      let r ← rest.toStrs
      some (s :: r)

/-- True when every element of the list is a Python str. -/
def PList.allStr : PList → Bool
  | .nil => true
  | .cons (.pyStr _) rest => rest.allStr
  | .cons _ _ => false

/-- A list of decoded byte strings as the Python value _read_list builds. -/
def pyStrsOf : List String → PList
  | [] => .nil
  | s :: rest => .cons (.pyStr s) (pyStrsOf rest)

/-- numpy accepts nested lists only when they are rectangular. -/
def allSameLength : List (List String) → Bool
  | [] => true
  | r :: rest => rest.all fun r2 => r2.length == r.length

/-- Models `value[col].to_numpy().__class__.__name__` in _make_metadata:
pandas Series.to_numpy returns a numpy.ndarray for every column dtype,
so the recorded class name is "ndarray" for every column. -/
def colNpClass (_ : Col) : String := "ndarray"

/-- The per-column metadata list built for a DataFrame: one
(column name, column class name) pair per column, in column order
(a Python tuple, which json.dumps/loads turns into a 2-element array). -/
def dfColMeta (cols : List (String × Col)) : List MVal :=
  cols.map fun p => .arr [.str p.1, .str (colNpClass p.2)]

mutual
/-- _make_metadata: walk a dict, recording per key either the nested
metadata of a plain dict value, the per-column list of a DataFrame, or
the value's class name. -/
def _make_metadata : PEntries → List (String × MVal)
  | .nil => []
  | .cons k v rest => (k, metaFor v) :: _make_metadata rest
/-- The metadata recorded for a single value by _make_metadata. -/
def metaFor : PVal → MVal
  | .dict es => .obj (_make_metadata es)
  | .df cols => .obj [("DataFrame", .arr (dfColMeta cols))]
  | v => .str (clsName v)
end

-- ==========================================================================
-- Backend writer functions
-- ==========================================================================

/-- _OrderedDict_to_array: `np.array([[key] + value for key, value in
od.items()], dtype='S')` — each row is the label followed by the dtype S
conversion of its value list; numpy then requires the rows to be
rectangular (ValueError otherwise; numpy raises whichever of the two
errors applies first, a distinction no theorem depends on). -/
def _OrderedDict_to_array (rows : ORows) : Except PErr (List (List String)) := do
  let raw ← rowsToLists rows
  if allSameLength raw then .ok raw else .error .raggedArray
where
  rowsToLists : ORows → Except PErr (List (List String))
    | .nil => .ok []
    | .cons k vals rest => do
        match vals.toStrs with
        | none => .error .cannotEncode
        | some vs => do
            let r ← rowsToLists rest
            .ok ((k :: vs) :: r)

/-- astype(str) on an object column: every cell is rendered by str(),
so a present text cell keeps its text and a missing cell (numpy nan)
becomes the string "nan" — it is no longer missing afterwards. -/
def seriesAstypeStr (cells : List OCell) : List OCell :=
  cells.map fun c => match c with
    | .s v => .s v
    | .missing => .s "nan"

/-- fillna(fill) on an object column: replaces exactly the cells that
are still missing, leaving present cells untouched. -/
def seriesFillna (cells : List OCell) (fill : String) : List OCell :=
  cells.map fun c => match c with
    | .s v => .s v
    | .missing => .s fill

/-- h5py create_dataset on a numpy array value: numeric and string
arrays get a dataset; an object array still holding a missing value has
no HDF5 type (TypeError). -/
def npToDData : NpArr → Except PErr DData
  | .num t => .ok (.dnum t)
  | .strs xs => .ok (.dstr xs)
  | .strs2 rows => .ok (.dstr2 rows)
  | .objs cells => objsToStrs cells
where
  objsToStrs : List OCell → Except PErr DData
    | [] => .ok (.dstr [])
    | .s v :: rest => do
        match ← objsToStrs rest with
        | .dstr xs => .ok (.dstr (v :: xs))
        | _ => .error .cannotEncode
    | .missing :: _ => .error .cannotEncode

/-- _write_ndarray: store the array as one dataset. -/
def _write_ndarray : PVal → Except PErr HEntry
  | .arr a => (npToDData a).map .dset
  | _ => .error .cannotEncode

/-- _write_OrderedDict: store the flattened fixed-width label/value
array as one dataset. -/
def _write_OrderedDict : PVal → Except PErr HEntry
  | .odict rows => (_OrderedDict_to_array rows).map fun a => .dset (.dstr2 a)
  | _ => .error .cannotEncode

/-- _write_list: `np.asarray(value, dtype='S')` — one text cell per
element.  A list whose elements are not scalars is outside the model
(numpy would build a higher-rank or object array there); no claim or
call site reaches that case. -/
def _write_list : PVal → Except PErr HEntry
  | .list xs =>
      match xs.toStrs with
      | some l => .ok (.dset (.dstr l))
      | none => .error .cannotEncode
  | _ => .error .cannotEncode

/-- _write_scalar: `np.asarray([value], dtype='S')` — a one-element
text dataset holding str() of the value. -/
def _write_scalar (v : PVal) : Except PErr HEntry :=
  match pyStrConv v with
  | some s => .ok (.dset (.dstr [s]))
  | none => .error .cannotEncode

/-- to_numpy on a column, as _write_DataFrame uses it after the object
branch: numeric columns give a 1-D numeric array, object columns give
an object array of their cells. -/
def colToNumpy : Col → NpArr
  | .numCol xs => .num ⟨[xs.length], xs⟩
  | .objCol cells => .objs cells

/-- _write_DataFrame: a group holding one dataset per column, in column
order.  An object column is first passed through astype(str) and then
fillna('NaN'); each column array is then written through the ndarray
writer (the class-name dispatch of _write_to_hdf5 on an ndarray always
selects _write_ndarray, see write_dispatch_ndarray below). -/
def _write_DataFrame : PVal → Except PErr HEntry
  | .df cols => (writeCols cols).map .group
  | _ => .error .cannotEncode
where
  writeCols : List (String × Col) → Except PErr HEntries
    | [] => .ok .nil
    | (c, col) :: rest => do
        let colData :=
          match col with
          | .numCol xs => Col.numCol xs
          | .objCol cells => Col.objCol (seriesFillna (seriesAstypeStr cells) "NaN")
        let e ← _write_ndarray (.arr (colToNumpy colData))
        let r ← writeCols rest
        .ok (.cons c e r)

/-- The writer table of _write_to_hdf5, keyed by class name. -/
inductive WKind where
  | wOrderedDict | wNdarray | wAttrs | wList | wDict | wDataFrame
  | wInputParameters | wScalar
deriving DecidableEq

/-- The writers dict of _write_to_hdf5, in source order. -/
def writersTable : List (String × WKind) :=
  [("OrderedDict", .wOrderedDict), ("ndarray", .wNdarray), ("attrs", .wAttrs),
   ("list", .wList), ("dict", .wDict), ("DataFrame", .wDataFrame),
   ("InputParameters", .wInputParameters)]

/-- `writers.get(cls_name, _write_scalar)`: total lookup with the
scalar writer as default. -/
def resolveWriter (cls : String) : WKind :=
  (alookup cls writersTable).getD .wScalar

mutual
/-- _write_to_hdf5: dispatch on the value's class name through the
writer table and apply the selected writer.  The attrs and
InputParameters writers are in the table but no modelled value has
those class names; the dict writer recurses over the group being
created. -/
def _write_to_hdf5 (v : PVal) : Except PErr HEntry :=
  match resolveWriter (clsName v) with
  | .wOrderedDict => _write_OrderedDict v
  | .wNdarray => _write_ndarray v
  | .wAttrs => .error .unsupportedWriter
  | .wList => _write_list v
  | .wDict =>
      -- _write_dict: create a group and recurse into each item
      match v with
      | .dict es => (writeEntries es).map .group
      | _ => .error .cannotEncode
  | .wDataFrame => _write_DataFrame v
  | .wInputParameters => .error .unsupportedWriter
  | .wScalar => _write_scalar v
/-- The item loop of _write_dict / save_hdf5: write each entry in order. -/
def writeEntries : PEntries → Except PErr HEntries
  | .nil => .ok .nil
  | .cons k v rest => do
      let e ← _write_to_hdf5 v
      let r ← writeEntries rest
      .ok (.cons k e r)
end

/-- Dispatch on an ndarray value always selects the ndarray writer:
justifies _write_DataFrame calling _write_ndarray directly where the
source routes the column array back through _write_to_hdf5. -/
theorem write_dispatch_ndarray (a : NpArr) :
    _write_to_hdf5 (.arr a) = _write_ndarray (.arr a) := rfl

/-- _write_attrs: `hdf5_file.attrs[key] = json.dumps(value)`. -/
def _write_attrs (attrs : List (String × AttrStr)) (k : String) (v : MVal) :
    List (String × AttrStr) :=
  attrs ++ [(k, .json v)]

/-- save_hdf5: write each item of the dictionary in order, then build
the metadata and store it as the '_metadata' root attribute.  The
returned step list records the observable write order. -/
def save_hdf5 (data : PEntries) : Except PErr (HFile × List SaveStep) := do
  let hs ← writeEntries data
  let metadata := MVal.obj (_make_metadata data)
  .ok (⟨hs, _write_attrs [] "_metadata" metadata⟩,
       (data.keys.map SaveStep.wroteEntry) ++ [SaveStep.wroteMetadataAttr])

-- ==========================================================================
-- Backend reader functions
-- ==========================================================================

/-- The reader table of _get_reader, keyed by recorded type tag. -/
inductive ReaderKind where
  | rOrderedDict | rNdarray | rAttrs | rList | rDict | rDataFrame
  | rInputParameters
deriving DecidableEq

/-- The readers dict of _get_reader, in source order. -/
def readersTable : List (String × ReaderKind) :=
  [("OrderedDict", .rOrderedDict), ("ndarray", .rNdarray), ("attrs", .rAttrs),
   ("list", .rList), ("dict", .rDict), ("DataFrame", .rDataFrame),
   ("InputParameters", .rInputParameters)]

/-- _get_reader: a metadata dict containing the key 'DataFrame' selects
the DataFrame reader, any other dict the dict reader; a tag string is
looked up in the table with _read_attrs as the default; a list is
unhashable and raises TypeError when used as a lookup key. -/
def _get_reader : MVal → Except PErr ReaderKind
  | .obj fields =>
      if (alookup "DataFrame" fields).isSome then .ok .rDataFrame else .ok .rDict
  | .str s => .ok ((alookup s readersTable).getD .rAttrs)
  | .arr _ => .error .unhashableTag

/-- `metadata[key]` on a parsed metadata node: KeyError when the key is
absent, TypeError when the node is not a dict. -/
def metaIndex (m : MVal) (k : String) : Except PErr MVal :=
  match m with
  | .obj fields =>
      match alookup k fields with
      | some v => .ok v
      | none => .error .metaKeyMissing
  | _ => .error .metaNotDict

/-- `group[name]` lookup among a group's members. -/
def HEntries.lookup (k : String) : HEntries → Option HEntry
  | .nil => none
  | .cons k' e rest => if k' = k then some e else rest.lookup k

/-- _read_ndarray: `np.asarray(value[()])`, the stored array itself. -/
def ddataToNp : DData → NpArr
  | .dnum t => .num t
  | .dstr xs => .strs xs
  | .dstr2 rows => .strs2 rows

/-- The row loop of _read_OrderedDict: `OrderedDict([(k, v) for k, *v in
array])` — entry i is built from row i, label from the first cell,
value list from the rest.  An empty row cannot be unpacked
(ValueError). -/
def odFromRows : List (List String) → Except PErr ORows
  | [] => .ok .nil
  | [] :: _ => .error .cannotUnpack
  | (k :: vs) :: rest => do
      let r ← odFromRows rest
      .ok (.cons k (pyStrsOf vs) r)

/-- The dataset-level readers, applied to one entry.  Branches
reachable only from containers save_hdf5 cannot produce are read
errors: the OrderedDict reader on a 1-D string or numeric dataset
(numpy would unpack strings character-wise or stringify numbers), the
list reader on numeric or 2-D data (elements have no decode method),
any dataset reader on a group, and the InputParameters reader (its
class is outside the value model). -/
def readLeafEntry : ReaderKind → HEntry → Except PErr PVal
  | .rAttrs, _ => .ok (.dict .nil)
  | .rNdarray, .dset d => .ok (.arr (ddataToNp d))
  | .rNdarray, .group _ => .error .notADataset
  | .rList, .dset (.dstr xs) => .ok (.list (pyStrsOf xs))
  | .rList, .dset _ => .error .noDecodeMethod
  | .rList, .group _ => .error .notADataset
  | .rOrderedDict, .dset (.dstr2 rows) => (odFromRows rows).map .odict
  | .rOrderedDict, .dset _ => .error .cannotUnpack
  | .rOrderedDict, .group _ => .error .notADataset
  | .rInputParameters, _ => .error .unsupportedReader
  | .rDict, _ => .error .notAGroup
  | .rDataFrame, _ => .error .notAGroup

/-- The column metadata parse inside _read_DataFrame:
`for col_name, col_dtype in column_metadata` over the recorded list,
each element unpacking into a (name, tag) pair.  Anything that is not a
list of 2-element [string, tag] lists fails to unpack or to index the
group (ValueError/TypeError). -/
def parseColMeta : MVal → Except PErr (List (String × MVal))
  | .arr xs => parsePairs xs
  | _ => .error .cannotUnpack
where
  parsePairs : List MVal → Except PErr (List (String × MVal))
    | [] => .ok []
    | .arr [.str c, d] :: rest => (parsePairs rest).map fun r => (c, d) :: r
    | _ :: _ => .error .cannotUnpack

/-- The reader applied to one column inside _read_DataFrame.  Only the
ndarray reader yields a value with a dtype; every other reader returns
a dict, list or OrderedDict, so the subsequent `col_data.dtype` raises
AttributeError (a nested dict or DataFrame tag in column metadata never
arises from save_hdf5 and is modelled by that same error, skipping the
doomed recursion). -/
def readColData : ReaderKind → HEntry → Except PErr NpArr
  | .rNdarray, .dset d => .ok (ddataToNp d)
  | .rNdarray, .group _ => .error .notADataset
  | _, _ => .error .noDtype

/-- The dtype check and cast of _read_DataFrame followed by the pandas
column constraint: an object-dtype array is cast to str (the decoded
text), a numeric 1-D array stays numeric, anything that is not a 1-D
column cannot enter a DataFrame. -/
def castCol : NpArr → Except PErr Col
  | .num t => if t.shape = [t.data.length] then .ok (.numCol t.data)
              else .error .badColumnShape
  | .strs xs => .ok (.objCol (xs.map .s))
  | .strs2 _ => .error .badColumnShape
  | .objs _ => .error .badColumnShape

/-- Column lengths of a reconstructed DataFrame must agree for
pd.DataFrame(data) to accept them. -/
def colLen : Col → Nat
  | .numCol xs => xs.length
  | .objCol cells => cells.length

/-- True when all columns have the same length. -/
def colsEqLen : List (String × Col) → Bool
  | [] => true
  | (_, c) :: rest => rest.all fun p => colLen p.2 == colLen c

/-- The column loop of _read_DataFrame: resolve each recorded column,
look it up in the group, read it and cast by dtype. -/
def readCols : List (String × MVal) → HEntries → Except PErr (List (String × Col))
  | [], _ => .ok []
  | (c, d) :: rest, es => do
      match es.lookup c with
      | none => .error .columnMissing
      | some e => do
          let k ← _get_reader d
          let a ← readColData k e
          let col ← castCol a
          let r ← readCols rest es
          .ok ((c, col) :: r)

/-- _read_DataFrame: read metadata['DataFrame'], reconstruct each
column in recorded order, and build the frame. -/
def _read_DataFrame (es : HEntries) (m : MVal) : Except PErr PVal := do
  let colmeta ← metaIndex m "DataFrame"
  let pairs ← parseColMeta colmeta
  let cols ← readCols pairs es
  if colsEqLen cols then .ok (.df cols) else .error .columnLengthMismatch

mutual
/-- Resolve a reader from the recorded metadata and apply it to one
entry, as `_get_reader(metadata[key])(group[key], metadata[key])`. -/
def readEntry (e : HEntry) (m : MVal) : Except PErr PVal :=
  match _get_reader m with
  | .error er => .error er
  | .ok .rDict =>
      -- _read_dict: iterate the group, reading each member
      match e with
      | .group es => (readGroup es m).map .dict
      | .dset _ => .error .notAGroup
  | .ok .rDataFrame =>
      match e with
      | .group es => _read_DataFrame es m
      | .dset _ => .error .notAGroup
  | .ok k => readLeafEntry k e

/-- The member loop shared by _read_dict and read_hdf5: for each member
of the group, look up its metadata and read it (h5py group names are
unique, so iterating the group and indexing it agree member by
member). -/
def readGroup (es : HEntries) (m : MVal) : Except PErr PEntries :=
  match es with
  | .nil => .ok .nil
  | .cons k e rest => do
      let mv ← metaIndex m k
      let v ← readEntry e mv
      let r ← readGroup rest m
      .ok (.cons k v r)
end

/-- read_hdf5: read and parse the '_metadata' root attribute first
(KeyError when absent, JSONDecodeError when unparsable), then
reconstruct every root member from its recorded metadata. -/
def read_hdf5 (f : HFile) : Except PErr PVal :=
  match alookup "_metadata" f.rootAttrs with
  | none => .error .missingMetadataAttr
  | some (.raw _) => .error .metadataNotJson
  | some (.json metadata) => (readGroup f.entries metadata).map .dict

/-- Saving then loading, the composition every round-trip statement is
about. -/
def loadAfterSave (data : PEntries) : Except PErr PVal :=
  (save_hdf5 data).bind fun p => read_hdf5 p.1

deriving instance DecidableEq for PVal

deriving instance DecidableEq for HEntry

-- ==========================================================================
-- Round-trip infrastructure
-- ==========================================================================

theorem except_bind_ok {ε α β : Type} (a : α) (f : α → Except ε β) :
    (Except.ok a : Except ε α) >>= f = f a := rfl

theorem except_map_ok {ε α β : Type} (a : α) (f : α → β) :
    Except.map f (Except.ok a : Except ε α) = .ok (f a) := rfl

theorem except_bind_error {ε α β : Type} (e : ε) (f : α → Except ε β) :
    (Except.error e : Except ε α) >>= f = .error e := rfl

theorem except_bindm_ok {ε α β : Type} (a : α) (f : α → Except ε β) :
    (Except.ok a : Except ε α).bind f = f a := rfl

theorem except_bindm_error {ε α β : Type} (e : ε) (f : α → Except ε β) :
    (Except.error e : Except ε α).bind f = .error e := rfl

/-- Number of elements of a Python list. -/
def PList.length : PList → Nat
  | .nil => 0
  | .cons _ rest => rest.length + 1

/-- The value-list lengths of an OrderedDict, in order. -/
def ORows.valLens : ORows → List Nat
  | .nil => []
  | .cons _ vals rest => vals.length :: rest.valLens

/-- True when every value list of an OrderedDict holds only str. -/
def ORows.valsStr : ORows → Bool
  | .nil => true
  | .cons _ vals rest => vals.allStr && rest.valsStr

/-- True when a list of naturals is constant. -/
def allEqNat : List Nat → Bool
  | [] => true
  | n :: rest => rest.all (· == n)

/-- True when an object column has no missing cell. -/
def colComplete : Col → Bool
  | .numCol _ => true
  | .objCol cells => cells.all fun c => match c with
      | .s _ => true
      | .missing => false

/-- True when every column of a frame is complete. -/
def colsComplete (cols : List (String × Col)) : Bool :=
  cols.all fun p => colComplete p.2

mutual
/-- The values whose saved form reloads to an equal value: numeric
arrays, lists of str, OrderedDicts of equal-width str value lists with
distinct labels, complete equal-length DataFrames with distinct column
names, and plain dicts of such values with distinct keys none of which
is the reserved metadata word "DataFrame". -/
inductive Good : PVal → Prop where
  | numArr (t : NdArr) : Good (.arr (.num t))
  | strList (xs : PList) : xs.allStr = true → Good (.list xs)
  | odict (rows : ORows) : rows.valsStr = true → allEqNat rows.valLens = true →
      rows.keys.Nodup → Good (.odict rows)
  | dict (es : PEntries) : es.keys.Nodup → "DataFrame" ∉ es.keys →
      GoodEntries es → Good (.dict es)
  | df (cols : List (String × Col)) : colsComplete cols = true →
      colsEqLen cols = true → (cols.map Prod.fst).Nodup → Good (.df cols)
/-- Entry-wise goodness of a dict's entries. -/
inductive GoodEntries : PEntries → Prop where
  | nil : GoodEntries .nil
  | cons (k : String) (v : PVal) (rest : PEntries) :
      Good v → GoodEntries rest → GoodEntries (.cons k v rest)
end

/-- The metadata node m serves the entries: indexing it at each entry's
key yields exactly that entry's recorded metadata. -/
def Aligned : PEntries → MVal → Prop
  | .nil, _ => True
  | .cons k v rest, m => metaIndex m k = .ok (metaFor v) ∧ Aligned rest m

theorem alookup_none_of_not_mem {α : Type} (k : String) :
    ∀ fields : List (String × α), k ∉ fields.map Prod.fst → alookup k fields = none
  | [], _ => rfl
  | (k', v) :: rest, h => by
      have hk : k' ≠ k := by
        intro he; exact h (by simp [he])
      simp only [alookup, if_neg hk]
      exact alookup_none_of_not_mem k rest (by
        intro hm; exact h (by simp [hm]))

theorem make_metadata_keys :
    ∀ es : PEntries, (_make_metadata es).map Prod.fst = es.keys
  | .nil => rfl
  | .cons k v rest => by
      simp [_make_metadata, PEntries.keys, make_metadata_keys rest]

theorem aligned_extend (k : String) (mv : MVal) :
    ∀ (es : PEntries) (fields : List (String × MVal)),
      Aligned es (.obj fields) → k ∉ es.keys →
      Aligned es (.obj ((k, mv) :: fields))
  | .nil, _, _, _ => trivial
  | .cons k' v rest, fields, ⟨hhead, hrest⟩, hk => by
      have hne : k ≠ k' := by
        intro he; exact hk (by simp [he, PEntries.keys])
      refine ⟨?_, aligned_extend k mv rest fields hrest ?_⟩
      · simpa [metaIndex, alookup, if_neg hne] using hhead
      · intro hm; exact hk (by simp [PEntries.keys, hm])

theorem aligned_make :
    ∀ es : PEntries, es.keys.Nodup → Aligned es (.obj (_make_metadata es))
  | .nil, _ => trivial
  | .cons k v rest, h => by
      rw [PEntries.keys, List.nodup_cons] at h
      refine ⟨by simp [metaIndex, _make_metadata, alookup], ?_⟩
      exact aligned_extend k (metaFor v) rest (_make_metadata rest)
        (aligned_make rest h.2) h.1

theorem allStr_toStrs :
    ∀ xs : PList, xs.allStr = true →
      ∃ l, xs.toStrs = some l ∧ pyStrsOf l = xs ∧ l.length = xs.length
  | .nil, _ => ⟨[], rfl, rfl, rfl⟩
  | .cons (.pyStr s) rest, h => by
      obtain ⟨l, hl, hp, hn⟩ := allStr_toStrs rest (by simpa [PList.allStr] using h)
      exact ⟨s :: l, by simp [PList.toStrs, pyStrConv, hl],
        by simp [pyStrsOf, hp], by simp [PList.length, hn]⟩
  | .cons (.pyInt _) _, h => by simp [PList.allStr] at h
  | .cons (.pyFloat _) _, h => by simp [PList.allStr] at h
  | .cons (.arr _) _, h => by simp [PList.allStr] at h
  | .cons (.list _) _, h => by simp [PList.allStr] at h
  | .cons (.odict _) _, h => by simp [PList.allStr] at h
  | .cons (.dict _) _, h => by simp [PList.allStr] at h
  | .cons (.df _) _, h => by simp [PList.allStr] at h

/-- The byte rows built for an OrderedDict decode back to it entry by
entry, labels taken from row heads, provided every value is a str. -/
theorem od_rows_roundtrip :
    ∀ rows : ORows, rows.valsStr = true →
      ∃ raw, _OrderedDict_to_array.rowsToLists rows = .ok raw ∧
        odFromRows raw = .ok rows ∧
        raw.map List.head? = rows.keys.map some ∧
        raw.map List.length = rows.valLens.map (· + 1)
  | .nil, _ => ⟨[], rfl, rfl, rfl, rfl⟩
  | .cons k vals rest, h => by
      have hv : vals.allStr = true := by
        have := h; simp [ORows.valsStr, Bool.and_eq_true] at this; exact this.1
      have hr : rest.valsStr = true := by
        have := h; simp [ORows.valsStr, Bool.and_eq_true] at this; exact this.2
      obtain ⟨l, hl, hp, hn⟩ := allStr_toStrs vals hv
      obtain ⟨raw, h1, h2, h3, h4⟩ := od_rows_roundtrip rest hr
      refine ⟨(k :: l) :: raw, ?_, ?_, ?_, ?_⟩
      · simp only [_OrderedDict_to_array.rowsToLists, hl, h1]; rfl
      · simp only [odFromRows, h1, h2, hp]; rfl
      · simp [ORows.keys, h3]
      · simp [ORows.valLens, h4, hn, Nat.add_comm]

theorem allSameLength_of_valLens :
    ∀ (raw : List (List String)) (ns : List Nat),
      raw.map List.length = ns.map (· + 1) → allEqNat ns = true →
      allSameLength raw = true := by
  intro raw ns h he
  cases raw with
  | nil => rfl
  | cons r rest =>
    cases ns with
    | nil => simp at h
    | cons n ns' =>
      simp only [List.map_cons, List.cons.injEq] at h
      obtain ⟨h1, h2⟩ := h
      simp only [allSameLength, List.all_eq_true]
      intro r2 hr2
      have hmem : r2.length ∈ ns'.map (· + 1) := by
        rw [← h2]; exact List.mem_map_of_mem _ hr2
      obtain ⟨m, hm, hlen⟩ := List.mem_map.mp hmem
      have hall : ∀ x ∈ ns', x = n := by
        simpa [allEqNat, List.all_eq_true] using he
      have hmn : m = n := hall m hm
      simp only [beq_iff_eq]
      omega

/-- str() of one object-column cell, as astype(str) renders it. -/
def cellText : OCell → String
  | .s v => v
  | .missing => "nan"

/-- The dataset a column ends up in: numeric columns natively, object
columns as the astype(str) texts. -/
def colWritten : Col → DData
  | .numCol xs => .dnum ⟨[xs.length], xs⟩
  | .objCol cells => .dstr (cells.map cellText)

theorem objsToStrs_astype :
    ∀ cells : List OCell,
      npToDData.objsToStrs (seriesFillna (seriesAstypeStr cells) "NaN") =
        .ok (.dstr (cells.map cellText))
  | [] => rfl
  | .s v :: rest => by
      have ih := objsToStrs_astype rest
      simp only [seriesAstypeStr, seriesFillna, List.map_cons, List.map_map] at ih ⊢
      simp [npToDData.objsToStrs, ih, cellText, except_bind_ok]
  | .missing :: rest => by
      have ih := objsToStrs_astype rest
      simp only [seriesAstypeStr, seriesFillna, List.map_cons, List.map_map] at ih ⊢
      simp [npToDData.objsToStrs, ih, cellText, except_bind_ok]

theorem objs_write (cells : List OCell) :
    npToDData (.objs (seriesFillna (seriesAstypeStr cells) "NaN")) =
      .ok (.dstr (cells.map cellText)) := by
  simpa [npToDData] using objsToStrs_astype cells

/-- The written form of a frame's columns, one dataset per column. -/
def dfEntriesOf : List (String × Col) → HEntries
  | [] => .nil
  | (c, col) :: rest => .cons c (.dset (colWritten col)) (dfEntriesOf rest)

theorem writeCols_ok :
    ∀ cols, _write_DataFrame.writeCols cols = .ok (dfEntriesOf cols)
  | [] => rfl
  | (c, col) :: rest => by
      have ih := writeCols_ok rest
      cases col with
      | numCol xs =>
          simp only [_write_DataFrame.writeCols, colToNumpy, _write_ndarray,
            npToDData, ih, dfEntriesOf, colWritten]
          rfl
      | objCol cells =>
          simp only [_write_DataFrame.writeCols, colToNumpy, _write_ndarray,
            objs_write, ih, dfEntriesOf, colWritten]
          rfl

theorem parse_pairs :
    ∀ cols, parseColMeta.parsePairs (dfColMeta cols) =
      .ok (cols.map fun p => (p.1, MVal.str "ndarray"))
  | [] => rfl
  | (c, col) :: rest => by
      have ih := parse_pairs rest
      simp only [dfColMeta, List.map_cons, colNpClass] at ih ⊢
      simp [parseColMeta.parsePairs, ih, except_map_ok]

theorem parse_dfColMeta (cols : List (String × Col)) :
    parseColMeta (.arr (dfColMeta cols)) =
      .ok (cols.map fun p => (p.1, MVal.str "ndarray")) := by
  simpa [parseColMeta] using parse_pairs cols

theorem dfEntries_lookup :
    ∀ (cols : List (String × Col)) (c : String) (col : Col),
      (cols.map Prod.fst).Nodup → (c, col) ∈ cols →
      (dfEntriesOf cols).lookup c = some (.dset (colWritten col))
  | [], _, _, _, hm => by simp at hm
  | (c0, col0) :: rest, c, col, hnd, hm => by
      rw [List.map_cons, List.nodup_cons] at hnd
      rcases List.mem_cons.mp hm with he | hm'
      · rw [Prod.mk.injEq] at he
        obtain ⟨h1, h2⟩ := he
        subst h1; subst h2
        simp [dfEntriesOf, HEntries.lookup]
      · have hcm : c ∈ rest.map Prod.fst := List.mem_map_of_mem Prod.fst hm'
        have hne : c0 ≠ c := by
          intro h; subst h; exact hnd.1 hcm
        simp only [dfEntriesOf, HEntries.lookup, if_neg hne]
        exact dfEntries_lookup rest c col hnd.2 hm'

theorem cells_complete_text (cells : List OCell)
    (h : colComplete (.objCol cells) = true) :
    (cells.map cellText).map OCell.s = cells := by
  induction cells with
  | nil => rfl
  | cons c rest ih =>
    simp only [colComplete, List.all_cons, Bool.and_eq_true] at h ih
    cases c with
    | s v => simp [cellText, ih h.2]
    | missing => simp at h

theorem readCols_roundtrip :
    ∀ (cols : List (String × Col)) (hs : HEntries),
      colsComplete cols = true →
      (∀ c col, (c, col) ∈ cols → hs.lookup c = some (.dset (colWritten col))) →
      readCols (cols.map fun p => (p.1, .str "ndarray")) hs = .ok cols
  | [], _, _, _ => rfl
  | (c, col) :: rest, hs, hcomp, hlk => by
      have hcomp' : colComplete col = true ∧ colsComplete rest = true := by
        simpa [colsComplete, Bool.and_eq_true] using hcomp
      have ih := readCols_roundtrip rest hs hcomp'.2 fun c' col' hm =>
        hlk c' col' (List.mem_cons_of_mem _ hm)
      have hhead := hlk c col (List.mem_cons_self ..)
      cases col with
      | numCol xs =>
          simp [readCols, hhead, colWritten, _get_reader, readersTable, alookup,
            readColData, ddataToNp, castCol, ih, except_bind_ok]
      | objCol cells =>
          simp [readCols, hhead, colWritten, _get_reader, readersTable, alookup,
            readColData, ddataToNp, castCol, ih, except_bind_ok,
            cells_complete_text cells hcomp'.1]

theorem colsEqLen_cons (c : String) (col : Col) (rest : List (String × Col)) :
    colsEqLen ((c, col) :: rest) =
      rest.all fun p => colLen p.2 == colLen col := rfl

mutual
/-- Core round trip: a good value writes without error and its entry,
read back under its own recorded metadata, is the value itself. -/
theorem rtVal : ∀ (v : PVal), Good v →
    ∃ e, _write_to_hdf5 v = .ok e ∧ readEntry e (metaFor v) = .ok v
  | _, .numArr t => by
      refine ⟨.dset (.dnum t), ?_, ?_⟩
      · simp [_write_to_hdf5, resolveWriter, clsName, writersTable, alookup,
          _write_ndarray, npToDData, except_map_ok]
      · simp [readEntry, metaFor, clsName, _get_reader, readersTable, alookup,
          readLeafEntry, ddataToNp]
  | _, .strList xs hall => by
      obtain ⟨l, hl, hp, _⟩ := allStr_toStrs xs hall
      refine ⟨.dset (.dstr l), ?_, ?_⟩
      · simp [_write_to_hdf5, resolveWriter, clsName, writersTable, alookup,
          _write_list, hl]
      · simp [readEntry, metaFor, clsName, _get_reader, readersTable, alookup,
          readLeafEntry, hp]
  | _, .odict rows hstr hlens hnd => by
      obtain ⟨raw, h1, h2, h3, h4⟩ := od_rows_roundtrip rows hstr
      have hrect : allSameLength raw = true :=
        allSameLength_of_valLens raw rows.valLens h4 hlens
      refine ⟨.dset (.dstr2 raw), ?_, ?_⟩
      · simp [_write_to_hdf5, resolveWriter, clsName, writersTable, alookup,
          _write_OrderedDict, _OrderedDict_to_array, h1, hrect, except_bind_ok,
          except_map_ok]
      · simp [readEntry, metaFor, clsName, _get_reader, readersTable, alookup,
          readLeafEntry, h2, except_map_ok]
  | _, .dict es hnd hdf hge => by
      obtain ⟨hs, hw, hr⟩ := rtEntries es (.obj (_make_metadata es)) hge
        (aligned_make es hnd)
      refine ⟨.group hs, ?_, ?_⟩
      · simp [_write_to_hdf5, resolveWriter, clsName, writersTable, alookup,
          hw, except_map_ok]
      · have hnone : alookup "DataFrame" (_make_metadata es) = none :=
          alookup_none_of_not_mem _ _ (by rw [make_metadata_keys]; exact hdf)
        simp [readEntry, metaFor, _get_reader, hnone, hr, except_map_ok]
  | _, .df cols hcomp heq hndc => by
      have hrc := readCols_roundtrip cols (dfEntriesOf cols) hcomp
        fun c col hm => dfEntries_lookup cols c col hndc hm
      refine ⟨.group (dfEntriesOf cols), ?_, ?_⟩
      · simp [_write_to_hdf5, resolveWriter, clsName, writersTable, alookup,
          _write_DataFrame, writeCols_ok, except_map_ok]
      · simp [readEntry, metaFor, _get_reader, alookup, _read_DataFrame,
          metaIndex, parse_dfColMeta, hrc, heq, except_bind_ok]
/-- Core round trip over a dict's entries, against any metadata node
serving them. -/
theorem rtEntries : ∀ (es : PEntries) (m : MVal), GoodEntries es → Aligned es m →
    ∃ hs, writeEntries es = .ok hs ∧ readGroup hs m = .ok es
  | _, _, .nil, _ => ⟨.nil, rfl, rfl⟩
  | _, m, .cons k v rest hv hrest, ha => by
      simp only [Aligned] at ha
      obtain ⟨e, hwv, hrv⟩ := rtVal v hv
      obtain ⟨hs, hwr, hrr⟩ := rtEntries rest m hrest ha.2
      refine ⟨.cons k e hs, ?_, ?_⟩
      · simp [writeEntries, hwv, hwr, except_bind_ok]
      · simp [readGroup, ha.1, hrv, hrr, except_bind_ok]
end

-- ==========================================================================
-- The shape-mirroring relation of the specification (spec-side predicate,
-- to be compared with the source-derived metadata builder)
-- ==========================================================================

/-- True exactly for the two container shapes (Grouping and Table). -/
def isDictOrTable : PVal → Bool
  | .dict _ => true
  | .df _ => true
  | _ => false

mutual
/-- The specification's shape-mirroring relation between a value and a
metadata node: at a Grouping the metadata is a mapping with the same
keys whose children mirror the value's children; at a Table it is a
single entry holding one (column name, tag) pair per column, in column
order, with no recursion; at every other node it is one tag string. -/
inductive Mirrors : PVal → MVal → Prop where
  | grouping (es : PEntries) (mes : List (String × MVal)) :
      MirrorsEntries es mes → Mirrors (.dict es) (.obj mes)
  | table (cols : List (String × Col)) (tags : List String)
      (hlen : tags.length = cols.length) :
      Mirrors (.df cols)
        (.obj [("DataFrame",
          .arr (List.zipWith (fun c t => MVal.arr [.str c, .str t])
            (cols.map Prod.fst) tags))])
  | leaf (v : PVal) (tag : String) (h : isDictOrTable v = false) :
      Mirrors v (.str tag)
/-- Pointwise mirroring of a Grouping's entries: same keys, in order,
each child mirrored. -/
inductive MirrorsEntries : PEntries → List (String × MVal) → Prop where
  | nil : MirrorsEntries .nil []
  | cons (k : String) (v : PVal) (rest : PEntries) (m : MVal)
      (mrest : List (String × MVal)) :
      Mirrors v m → MirrorsEntries rest mrest →
      MirrorsEntries (.cons k v rest) ((k, m) :: mrest)
end

theorem dfColMeta_zip (cols : List (String × Col)) :
    dfColMeta cols =
      List.zipWith (fun c t => MVal.arr [.str c, .str t])
        (cols.map Prod.fst) (cols.map fun p => colNpClass p.2) := by
  induction cols with
  | nil => rfl
  | cons p rest ih => simp [dfColMeta, ih]

mutual
/-- The metadata recorded for any value mirrors that value. -/
theorem mirrorsVal : ∀ v : PVal, Mirrors v (metaFor v)
  | .dict es => .grouping es _ (mirrorsEntries es)
  | .df cols => by
      have hz := dfColMeta_zip cols
      have ht := Mirrors.table cols (cols.map fun p => colNpClass p.2) (by simp)
      rw [metaFor, hz]
      exact ht
  | .pyInt n => .leaf _ _ rfl
  | .pyFloat r => .leaf _ _ rfl
  | .pyStr s => .leaf _ _ rfl
  | .arr a => .leaf _ _ rfl
  | .list xs => .leaf _ _ rfl
  | .odict rows => .leaf _ _ rfl
/-- The metadata recorded for a dict's entries mirrors them pointwise. -/
theorem mirrorsEntries : ∀ es : PEntries, MirrorsEntries es (_make_metadata es)
  | .nil => .nil
  | .cons k v rest => .cons k v rest _ _ (mirrorsVal v) (mirrorsEntries rest)
end

/-- True exactly for the three scalar shapes. -/
def isScalarVal : PVal → Bool
  | .pyInt _ => true
  | .pyFloat _ => true
  | .pyStr _ => true
  | _ => false

/-- The rows built for an OrderedDict, whatever the value types, decode
positionally: entry i of the reconstruction comes from row i, its label
is row i's head, and the label sequence is the insertion order. -/
theorem odFromRows_keys :
    ∀ (rows : ORows) (raw : List (List String)),
      _OrderedDict_to_array.rowsToLists rows = .ok raw →
      ∃ od', odFromRows raw = .ok od' ∧ od'.keys = rows.keys ∧
        raw.map List.head? = rows.keys.map some
  | .nil, raw, h => by
      refine ⟨.nil, ?_, ?_, ?_⟩ <;>
        · obtain rfl : ([] : List (List String)) = raw := by
            simpa [_OrderedDict_to_array.rowsToLists] using h
          rfl
  | .cons k vals rest, raw, h => by
      simp only [_OrderedDict_to_array.rowsToLists] at h
      cases hvs : vals.toStrs with
      | none => rw [hvs] at h; exact absurd h (by simp)
      | some vs =>
        rw [hvs] at h
        cases hr : _OrderedDict_to_array.rowsToLists rest with
        | error e => rw [hr] at h; exact absurd h (by simp [except_bind_error])
        | ok raw' =>
          rw [hr] at h
          obtain rfl : (k :: vs) :: raw' = raw := by
            simpa [except_bind_ok] using h
          obtain ⟨od'', h1, h2, h3⟩ := odFromRows_keys rest raw' hr
          refine ⟨.cons k (pyStrsOf vs) od'', ?_, ?_, ?_⟩
          · simp [odFromRows, h1, except_bind_ok]
          · simp [ORows.keys, h2]
          · simp [ORows.keys, h3]

-- ==========================================================================
-- Claims
-- ==========================================================================

/-- C1, counterexample: the claim's round trip fails on a scalar entry,
one of the supported node shapes and not a Table with missing values.
Saving `{"a": 5}` records the tag "int"; the reader registry has no
such tag, so the fallback attrs reader returns the dataset's (empty)
attribute mapping, and the load yields `{"a": {}}`, not `{"a": 5}`. -/
theorem c1_scalar_roundtrip_counterexample :
    loadAfterSave (.cons "a" (.pyInt 5) .nil) =
      .ok (.dict (.cons "a" (.dict .nil) .nil)) ∧
    PVal.dict (.cons "a" (.dict .nil) .nil) ≠
      .dict (.cons "a" (.pyInt 5) .nil) := ⟨rfl, by decide⟩

/-- C1 (amended): the round trip `read_hdf5 after save_hdf5` returns a
value structurally and value-equal to the input for every dictionary
(with distinct keys) built from the reader-registry-covered shapes:
numeric arrays, lists of str, OrderedDicts of equal-width str value
lists with distinct labels, complete equal-length DataFrames with
distinct column names, and nested plain dicts of such values whose keys
are distinct and avoid the reserved metadata word "DataFrame".  Scalar
entries instead load back as empty mappings, and non-str list or
OrderedDict elements come back stringified. -/
theorem c1_roundtrip_amended (es : PEntries) (hg : GoodEntries es)
    (hnd : es.keys.Nodup) : loadAfterSave es = .ok (.dict es) := by
  obtain ⟨hs, hw, hr⟩ := rtEntries es (.obj (_make_metadata es)) hg
    (aligned_make es hnd)
  simp [loadAfterSave, save_hdf5, hw, read_hdf5, _write_attrs, alookup, hr,
    except_bind_ok, except_bindm_ok, except_map_ok]

/-- C1, witness: the amended round trip evaluated on a dictionary
holding one entry of each good shape. -/
theorem c1_roundtrip_amended_witness :
    GoodEntries (.cons "b" (.arr (.num ⟨[2, 2], [1, 2, 3, 4]⟩))
      (.cons "l" (.list (.cons (.pyStr "x") .nil))
      (.cons "o" (.odict (.cons "k1" (.cons (.pyStr "v") .nil) .nil))
      (.cons "g" (.dict (.cons "n" (.arr (.num ⟨[1], [7]⟩)) .nil))
      (.cons "t" (.df [("x", .numCol [1, 2]), ("y", .objCol [.s "p", .s "q"])])
        .nil))))) ∧
    (PEntries.cons "b" (.arr (.num ⟨[2, 2], [1, 2, 3, 4]⟩))
      (.cons "l" (.list (.cons (.pyStr "x") .nil))
      (.cons "o" (.odict (.cons "k1" (.cons (.pyStr "v") .nil) .nil))
      (.cons "g" (.dict (.cons "n" (.arr (.num ⟨[1], [7]⟩)) .nil))
      (.cons "t" (.df [("x", .numCol [1, 2]), ("y", .objCol [.s "p", .s "q"])])
        .nil))))).keys.Nodup ∧
    loadAfterSave (.cons "b" (.arr (.num ⟨[2, 2], [1, 2, 3, 4]⟩))
      (.cons "l" (.list (.cons (.pyStr "x") .nil))
      (.cons "o" (.odict (.cons "k1" (.cons (.pyStr "v") .nil) .nil))
      (.cons "g" (.dict (.cons "n" (.arr (.num ⟨[1], [7]⟩)) .nil))
      (.cons "t" (.df [("x", .numCol [1, 2]), ("y", .objCol [.s "p", .s "q"])])
        .nil))))) =
    .ok (.dict (.cons "b" (.arr (.num ⟨[2, 2], [1, 2, 3, 4]⟩))
      (.cons "l" (.list (.cons (.pyStr "x") .nil))
      (.cons "o" (.odict (.cons "k1" (.cons (.pyStr "v") .nil) .nil))
      (.cons "g" (.dict (.cons "n" (.arr (.num ⟨[1], [7]⟩)) .nil))
      (.cons "t" (.df [("x", .numCol [1, 2]), ("y", .objCol [.s "p", .s "q"])])
        .nil)))))) := by
  have hg : GoodEntries (.cons "b" (.arr (.num ⟨[2, 2], [1, 2, 3, 4]⟩))
      (.cons "l" (.list (.cons (.pyStr "x") .nil))
      (.cons "o" (.odict (.cons "k1" (.cons (.pyStr "v") .nil) .nil))
      (.cons "g" (.dict (.cons "n" (.arr (.num ⟨[1], [7]⟩)) .nil))
      (.cons "t" (.df [("x", .numCol [1, 2]), ("y", .objCol [.s "p", .s "q"])])
        .nil))))) := by
    refine .cons _ _ _ (.numArr _) (.cons _ _ _ (.strList _ (by decide))
      (.cons _ _ _ (.odict _ (by decide) (by decide) (by decide))
      (.cons _ _ _ (.dict _ (by decide) (by decide)
        (.cons _ _ _ (.numArr _) .nil))
      (.cons _ _ _ (.df _ (by decide) (by decide) (by decide)) .nil))))
  exact ⟨hg, by decide, c1_roundtrip_amended _ hg (by decide)⟩

/-- C2: an OrderedDict whose labels were inserted in a given order is
stored as one fixed-width row array (one row per entry, label at the
head of its row, in insertion order) and reloads with the labels in
exactly that order, the reconstruction reading entry i from row i with
no separate index. -/
theorem c2_order_preservation (rows : ORows) (raw : List (List String))
    (_hnd : rows.keys.Nodup) (h : _OrderedDict_to_array rows = .ok raw) :
    ∃ od', odFromRows raw = .ok od' ∧
      (save_hdf5 (.cons "k" (.odict rows) .nil)).map (fun p => p.1.entries) =
        .ok (.cons "k" (.dset (.dstr2 raw)) .nil) ∧
      loadAfterSave (.cons "k" (.odict rows) .nil) =
        .ok (.dict (.cons "k" (.odict od') .nil)) ∧
      od'.keys = rows.keys ∧
      raw.map List.head? = rows.keys.map some := by
  simp only [_OrderedDict_to_array] at h
  cases hr : _OrderedDict_to_array.rowsToLists rows with
  | error e => rw [hr] at h; exact absurd h (by simp [except_bind_error])
  | ok raw0 =>
    rw [hr] at h
    rw [except_bind_ok] at h
    by_cases hrect : allSameLength raw0 = true
    · rw [if_pos hrect] at h
      have hre : raw0 = raw := by simpa using h
      subst hre
      obtain ⟨od', h1, h2, h3⟩ := odFromRows_keys rows raw0 hr
      have hwrite : _write_to_hdf5 (.odict rows) = .ok (.dset (.dstr2 raw0)) := by
        simp [_write_to_hdf5, resolveWriter, clsName, writersTable, alookup,
          _write_OrderedDict, _OrderedDict_to_array, hr, hrect, except_bind_ok,
          except_map_ok]
      refine ⟨od', h1, ?_, ?_, h2, h3⟩
      · simp [save_hdf5, writeEntries, hwrite, except_bind_ok, except_map_ok]
      · simp [loadAfterSave, save_hdf5, writeEntries, hwrite, read_hdf5,
          _write_attrs, alookup, _make_metadata, metaFor, clsName, readGroup,
          metaIndex, readEntry, _get_reader, readersTable, readLeafEntry, h1,
          except_bind_ok, except_bindm_ok, except_map_ok]
    · rw [if_neg hrect] at h; exact absurd h (by simp)

/-- C2, witness: labels inserted as b, a, c come back as b, a, c. -/
theorem c2_order_preservation_witness :
    (ORows.cons "b" (.cons (.pyStr "1") .nil)
      (.cons "a" (.cons (.pyStr "2") .nil)
      (.cons "c" (.cons (.pyStr "3") .nil) .nil))).keys.Nodup ∧
    _OrderedDict_to_array (.cons "b" (.cons (.pyStr "1") .nil)
      (.cons "a" (.cons (.pyStr "2") .nil)
      (.cons "c" (.cons (.pyStr "3") .nil) .nil))) =
      .ok [["b", "1"], ["a", "2"], ["c", "3"]] ∧
    (∃ od', odFromRows [["b", "1"], ["a", "2"], ["c", "3"]] = .ok od' ∧
      (save_hdf5 (.cons "k" (.odict (.cons "b" (.cons (.pyStr "1") .nil)
        (.cons "a" (.cons (.pyStr "2") .nil)
        (.cons "c" (.cons (.pyStr "3") .nil) .nil)))) .nil)).map
          (fun p => p.1.entries) =
        .ok (.cons "k" (.dset (.dstr2 [["b", "1"], ["a", "2"], ["c", "3"]]))
          .nil) ∧
      loadAfterSave (.cons "k" (.odict (.cons "b" (.cons (.pyStr "1") .nil)
        (.cons "a" (.cons (.pyStr "2") .nil)
        (.cons "c" (.cons (.pyStr "3") .nil) .nil)))) .nil) =
        .ok (.dict (.cons "k" (.odict od') .nil)) ∧
      od'.keys = (ORows.cons "b" (.cons (.pyStr "1") .nil)
        (.cons "a" (.cons (.pyStr "2") .nil)
        (.cons "c" (.cons (.pyStr "3") .nil) .nil))).keys ∧
      [["b", "1"], ["a", "2"], ["c", "3"]].map List.head? =
        (ORows.cons "b" (.cons (.pyStr "1") .nil)
          (.cons "a" (.cons (.pyStr "2") .nil)
          (.cons "c" (.cons (.pyStr "3") .nil) .nil))).keys.map some) :=
  ⟨by decide, rfl, c2_order_preservation _ _ (by decide) rfl⟩

/-- C3: the metadata built for any input dictionary mirrors it shape
for shape: at every plain-dict level the metadata has exactly the same
keys with mirrored children, every Table is one entry holding a
per-column (name, tag) list without recursion, and every other node is
a single tag string. -/
theorem c3_tag_mirroring (es : PEntries) :
    Mirrors (.dict es) (.obj (_make_metadata es)) :=
  Mirrors.grouping es _ (mirrorsEntries es)

/-- C4: a container whose root attributes lack the '_metadata' key, or
hold an unparsable value under it, makes read_hdf5 fail immediately
with the corresponding metadata format error — whatever the container's
entries — returning no partial result and attempting nothing else. -/
theorem c4_missing_metadata_failure :
    (∀ (es : HEntries) (attrs : List (String × AttrStr)),
        alookup "_metadata" attrs = none →
        read_hdf5 ⟨es, attrs⟩ = .error .missingMetadataAttr) ∧
    (∀ (es : HEntries) (attrs : List (String × AttrStr)) (s : String),
        alookup "_metadata" attrs = some (.raw s) →
        read_hdf5 ⟨es, attrs⟩ = .error .metadataNotJson) := by
  constructor
  · intro es attrs h; simp [read_hdf5, h]
  · intro es attrs s h; simp [read_hdf5, h]

/-- C4, witness: the failure evaluated on a container with no
attributes and on one with an unparsable metadata attribute. -/
theorem c4_missing_metadata_failure_witness :
    alookup "_metadata" ([] : List (String × AttrStr)) = none ∧
    read_hdf5 ⟨.cons "k" (.dset (.dstr ["v"])) .nil, []⟩ =
      .error .missingMetadataAttr ∧
    alookup "_metadata" [("_metadata", AttrStr.raw "not json")] =
      some (.raw "not json") ∧
    read_hdf5 ⟨.nil, [("_metadata", .raw "not json")]⟩ =
      .error .metadataNotJson :=
  ⟨rfl, c4_missing_metadata_failure.1 _ [] rfl,
   rfl, c4_missing_metadata_failure.2 .nil _ "not json" rfl⟩

/-- C5, counterexample: under an unknown tag the load does complete,
but the slot holds the entry's (empty) attribute mapping — an empty
dict, not an opaque scalar and unrelated to the stored payload. -/
theorem c5_unknown_tag_counterexample :
    read_hdf5 ⟨.cons "k" (.dset (.dstr ["payload"])) .nil,
        [("_metadata", .json (.obj [("k", .str "mysteryTag")]))]⟩ =
      .ok (.dict (.cons "k" (.dict .nil) .nil)) ∧
    isScalarVal (.dict .nil) = false ∧
    PVal.dict .nil ≠ .pyStr "payload" := ⟨rfl, rfl, by decide⟩

/-- C5 (amended): for every tag absent from the reader registry,
_get_reader falls back to the attrs reader rather than failing, and
reading any entry under such a tag succeeds, producing the entry's
attribute mapping — an empty dict for entries written by this engine —
so the rest of the load proceeds. -/
theorem c5_unknown_tag_fallback (t : String)
    (h : alookup t readersTable = none) :
    _get_reader (.str t) = .ok .rAttrs ∧
    ∀ e : HEntry, readEntry e (.str t) = .ok (.dict .nil) := by
  have hg : _get_reader (.str t) = .ok .rAttrs := by
    simp [_get_reader, h]
  exact ⟨hg, fun e => by cases e <;> simp [readEntry, hg, readLeafEntry]⟩

/-- C5, witness: the fallback evaluated at the tag "str" (recorded for
every text scalar and indeed absent from the reader registry). -/
theorem c5_unknown_tag_fallback_witness :
    alookup "str" readersTable = none ∧
    (_get_reader (.str "str") = .ok .rAttrs ∧
      ∀ e : HEntry, readEntry e (.str "str") = .ok (.dict .nil)) :=
  ⟨rfl, c5_unknown_tag_fallback "str" rfl⟩

/-- C6: evaluation at the claim's own example.  astype(str) runs before
fillna('NaN'), so the missing cell is already the string "nan" when
fillna looks for missing values, and the stored sentinel is "nan", not
"NaN"; the float scalar "a" moreover reloads as an empty mapping.  This
contradicts the sentinel the source itself names in its fillna call. -/
theorem c6_sentinel_divergence :
    seriesFillna (seriesAstypeStr [.s "foo", .missing]) "NaN" =
      [.s "foo", .s "nan"] ∧
    loadAfterSave (.cons "a" (.pyFloat "3.14")
        (.cons "b" (.arr (.num ⟨[2, 2], [1, 2, 3, 4]⟩))
        (.cons "c" (.df [("x", .numCol [1, 2]),
          ("y", .objCol [.s "foo", .missing])]) .nil))) =
      .ok (.dict (.cons "a" (.dict .nil)
        (.cons "b" (.arr (.num ⟨[2, 2], [1, 2, 3, 4]⟩))
        (.cons "c" (.df [("x", .numCol [1, 2]),
          ("y", .objCol [.s "foo", .s "nan"])]) .nil)))) ∧
    Col.objCol [.s "foo", .s "nan"] ≠ .objCol [.s "foo", .s "NaN"] :=
  ⟨rfl, rfl, by decide⟩

/-- C7, counterexample: the recorded per-column tag is the runtime
array class name, "ndarray" for every column, so a numeric column and a
text column — columns of different element types — receive the
identical tag; the tag is not obtained from the column's element type
and cannot be what decides the text-versus-numeric cast. -/
theorem c7_column_tag_counterexample :
    metaFor (.df [("x", .numCol [1, 2]), ("y", .objCol [.s "foo", .s "bar"])]) =
      .obj [("DataFrame", .arr [.arr [.str "x", .str "ndarray"],
        .arr [.str "y", .str "ndarray"]])] ∧
    colNpClass (.numCol [1, 2]) = colNpClass (.objCol [.s "foo", .s "bar"]) ∧
    Col.numCol [1, 2] ≠ .objCol [.s "foo", .s "bar"] := ⟨rfl, rfl, by decide⟩

/-- C7 (amended): for every Table the metadata records one
(column name, "ndarray") pair per column in column order — the runtime
array class, identical for all columns — and on load every column is
resolved through the ndarray reader, the text-versus-numeric decision
being made from the stored column's own dtype (object data is cast to
text, numeric data left numeric), so a complete frame with distinct
column names reloads equal to the original. -/
theorem c7_per_column_tags (cols : List (String × Col))
    (hcomp : colsComplete cols = true) (heq : colsEqLen cols = true)
    (hnd : (cols.map Prod.fst).Nodup) :
    metaFor (.df cols) =
      .obj [("DataFrame",
        .arr (cols.map fun p => .arr [.str p.1, .str "ndarray"]))] ∧
    ∃ e, _write_to_hdf5 (.df cols) = .ok e ∧
      readEntry e (metaFor (.df cols)) = .ok (.df cols) := by
  constructor
  · simp [metaFor, dfColMeta, colNpClass]
  · exact rtVal _ (.df cols hcomp heq hnd)

/-- C7, witness: the amended statement evaluated on a two-column frame
with one numeric and one text column. -/
theorem c7_per_column_tags_witness :
    colsComplete [("x", Col.numCol [1, 2]), ("y", .objCol [.s "u", .s "w"])] =
      true ∧
    colsEqLen [("x", Col.numCol [1, 2]), ("y", .objCol [.s "u", .s "w"])] =
      true ∧
    ([("x", Col.numCol [1, 2]), ("y", .objCol [.s "u", .s "w"])].map
      Prod.fst).Nodup ∧
    (metaFor (.df [("x", Col.numCol [1, 2]), ("y", .objCol [.s "u", .s "w"])]) =
      .obj [("DataFrame",
        .arr ([("x", Col.numCol [1, 2]), ("y", .objCol [.s "u", .s "w"])].map
          fun p => .arr [.str p.1, .str "ndarray"]))] ∧
    ∃ e, _write_to_hdf5
        (.df [("x", Col.numCol [1, 2]), ("y", .objCol [.s "u", .s "w"])]) =
        .ok e ∧
      readEntry e (metaFor
        (.df [("x", Col.numCol [1, 2]), ("y", .objCol [.s "u", .s "w"])])) =
        .ok (.df [("x", Col.numCol [1, 2]), ("y", .objCol [.s "u", .s "w"])])) :=
  ⟨by decide, by decide, by decide,
   c7_per_column_tags _ (by decide) (by decide) (by decide)⟩

/-- C8: every successful save stores, as its final step, exactly one
root attribute: the key '_metadata' holding the JSON serialization of
the complete metadata tree of the input; the step trace is the data
entries in order followed by the metadata-attribute write. -/
theorem c8_metadata_attr_final (data : PEntries) (f : HFile)
    (tr : List SaveStep) (h : save_hdf5 data = .ok (f, tr)) :
    f.rootAttrs = [("_metadata", .json (.obj (_make_metadata data)))] ∧
    tr = data.keys.map SaveStep.wroteEntry ++ [SaveStep.wroteMetadataAttr] := by
  cases hw : writeEntries data with
  | error e =>
      rw [save_hdf5, hw, except_bind_error] at h
      exact absurd h (by simp)
  | ok hs =>
      rw [save_hdf5, hw, except_bind_ok] at h
      obtain ⟨h1, h2⟩ := Prod.mk.injEq .. ▸ Except.ok.inj h
      exact ⟨h1 ▸ rfl, h2 ▸ rfl⟩

/-- C8, witness: the metadata write evaluated on a one-entry save. -/
theorem c8_metadata_attr_final_witness :
    save_hdf5 (.cons "a" (.pyInt 1) .nil) =
      .ok (⟨.cons "a" (.dset (.dstr ["1"])) .nil,
            [("_metadata", .json (.obj [("a", .str "int")]))]⟩,
           [.wroteEntry "a", .wroteMetadataAttr]) ∧
    ((⟨.cons "a" (.dset (.dstr ["1"])) .nil,
        [("_metadata", .json (.obj [("a", .str "int")]))]⟩ : HFile).rootAttrs =
      [("_metadata", .json (.obj (_make_metadata (.cons "a" (.pyInt 1) .nil))))] ∧
     [SaveStep.wroteEntry "a", SaveStep.wroteMetadataAttr] =
      (PEntries.cons "a" (.pyInt 1) .nil).keys.map SaveStep.wroteEntry ++
        [SaveStep.wroteMetadataAttr]) :=
  ⟨rfl, c8_metadata_attr_final _ _ _ rfl⟩

/-- C9: writer dispatch is total — any class name outside the writer
table falls back to the scalar writer, and each of the six core shapes'
class names resolves to its writer (the three scalar class names are
not table keys, so they resolve to the scalar writer by that same
fallback). -/
theorem c9_writer_dispatch_total :
    (∀ cls : String, alookup cls writersTable = none →
      resolveWriter cls = .wScalar) ∧
    resolveWriter "ndarray" = .wNdarray ∧
    resolveWriter "list" = .wList ∧
    resolveWriter "OrderedDict" = .wOrderedDict ∧
    resolveWriter "dict" = .wDict ∧
    resolveWriter "DataFrame" = .wDataFrame ∧
    resolveWriter "int" = .wScalar ∧
    resolveWriter "float" = .wScalar ∧
    resolveWriter "str" = .wScalar :=
  ⟨fun cls h => by simp [resolveWriter, h],
   rfl, rfl, rfl, rfl, rfl, rfl, rfl, rfl⟩

/-- C9, witness: the fallback evaluated at a class name outside the
table. -/
theorem c9_writer_dispatch_total_witness :
    alookup "Wombat" writersTable = none ∧
    resolveWriter "Wombat" = .wScalar :=
  ⟨rfl, c9_writer_dispatch_total.1 "Wombat" rfl⟩

/-- C10: a dictionary entry holding a list whose elements all convert
to text (str() under the byte cast) is stored as one text cell per
element and reloads as the list of Python str whose i-th element is the
decoded encoding of the i-th original element, in order; when the
elements already are str the reloaded list equals the original. -/
theorem c10_list_stringification (xs : PList) (l : List String)
    (h : xs.toStrs = some l) :
    _write_to_hdf5 (.list xs) = .ok (.dset (.dstr l)) ∧
    readEntry (.dset (.dstr l)) (metaFor (.list xs)) = .ok (.list (pyStrsOf l)) ∧
    loadAfterSave (.cons "k" (.list xs) .nil) =
      .ok (.dict (.cons "k" (.list (pyStrsOf l)) .nil)) ∧
    (xs.allStr = true → pyStrsOf l = xs) := by
  have hw : _write_to_hdf5 (.list xs) = .ok (.dset (.dstr l)) := by
    simp [_write_to_hdf5, resolveWriter, clsName, writersTable, alookup,
      _write_list, h]
  refine ⟨hw, ?_, ?_, ?_⟩
  · simp [readEntry, metaFor, clsName, _get_reader, readersTable, alookup,
      readLeafEntry]
  · simp [loadAfterSave, save_hdf5, writeEntries, hw, read_hdf5, _write_attrs,
      alookup, _make_metadata, metaFor, clsName, readGroup, metaIndex,
      readEntry, _get_reader, readersTable, readLeafEntry, except_bind_ok,
      except_bindm_ok, except_map_ok]
  · intro hall
    obtain ⟨l', hl', hp, _⟩ := allStr_toStrs xs hall
    rw [h] at hl'
    exact (Option.some.inj hl') ▸ hp

/-- C10, witness: a mixed str/int list reloads as its textual images,
the str element unchanged and the int element as its decimal text. -/
theorem c10_list_stringification_witness :
    (PList.cons (.pyStr "foo") (.cons (.pyInt 7) .nil)).toStrs =
      some ["foo", "7"] ∧
    (_write_to_hdf5 (.list (.cons (.pyStr "foo") (.cons (.pyInt 7) .nil))) =
      .ok (.dset (.dstr ["foo", "7"])) ∧
    readEntry (.dset (.dstr ["foo", "7"]))
        (metaFor (.list (.cons (.pyStr "foo") (.cons (.pyInt 7) .nil)))) =
      .ok (.list (pyStrsOf ["foo", "7"])) ∧
    loadAfterSave (.cons "k"
        (.list (.cons (.pyStr "foo") (.cons (.pyInt 7) .nil))) .nil) =
      .ok (.dict (.cons "k" (.list (pyStrsOf ["foo", "7"])) .nil)) ∧
    ((PList.cons (.pyStr "foo") (.cons (.pyInt 7) .nil)).allStr = true →
      pyStrsOf ["foo", "7"] =
        .cons (.pyStr "foo") (.cons (.pyInt 7) .nil))) :=
  ⟨rfl, c10_list_stringification _ ["foo", "7"] rfl⟩

end LU

